import Mathlib

/-!
Verification development for two modules of the RIDE repository:
`src/robotide/action/actioninfo.py` (a menu/toolbar action DSL parser) and
`src/robotide/editor/grid.py` (grid selection, clipboard, and undo logic).

Python strings are embedded as `List Char`; Python string methods used by the
source (`split`, `strip`, `startswith`, `endswith`, `replace`, `lower`) are
translated below with matching semantics.  Fallible code (`getattr`, tuple
unpacking) is embedded with `Except`.
-/

namespace Ride

/-- Python `s.split(sep)` for a single-character separator `sep`:
always returns a non-empty list and keeps empty pieces. -/
def splitChar (sep : Char) : List Char → List (List Char)
  | [] => [[]]
  | c :: rest =>
    if c = sep then [] :: splitChar sep rest
    else
      match splitChar sep rest with
      | [] => [[c]]
      | p :: ps => (c :: p) :: ps

/-- Python `s.split(sep, 1)` for a single-character separator: the text before
the first occurrence of `sep`, and `some` of the text after it (or `none` when
`sep` does not occur).  `(break1 sep s).2.isSome` is exactly Python `sep in s`. -/
def break1 (sep : Char) : List Char → List Char × Option (List Char)
  | [] => ([], none)
  | c :: rest =>
    if c = sep then ([], some rest)
    else
      let r := break1 sep rest
      (c :: r.1, r.2)

/-- Fuel-driven worker for `splitSeq`; the fuel starts at the length of the
string, which always suffices because every step consumes at least one
character. -/
def splitSeqAux (sep : List Char) : Nat → List Char → List (List Char)
  | _, [] => [[]]
  | 0, s => [s]
  | fuel + 1, c :: rest =>
    if sep ≠ [] ∧ sep.isPrefixOf (c :: rest) then
      [] :: splitSeqAux sep fuel ((c :: rest).drop sep.length)
    else
      match splitSeqAux sep fuel rest with
      | [] => [[c]]
      | p :: ps => (c :: p) :: ps

/-- Python `s.split(sep)` for a non-empty multi-character separator
(used for the literal `' or '` separator in the name field). -/
def splitSeq (sep s : List Char) : List (List Char) :=
  splitSeqAux sep s.length s

/-- Python `s.strip()`: drop leading and trailing whitespace. -/
def pyStrip (s : List Char) : List Char :=
  ((s.dropWhile Char.isWhitespace).reverse.dropWhile Char.isWhitespace).reverse

/-- Python `s.replace(c, '')` for a one-character pattern: remove every
occurrence of `c`. -/
def removeAll (c : Char) (s : List Char) : List Char :=
  s.filter (· != c)

/-- Python `s.lower()` (ASCII case folding suffices for the menu names used). -/
def lowerL (s : List Char) : List Char :=
  s.map Char.toLower

/-- Python `range(a, b + 1)` over integers: the integers from `a` to `b`
inclusive, empty when `b < a`. -/
def intRange (a b : Int) : List Int :=
  (List.range (b + 1 - a).toNat).map (fun (i : Nat) => a + (i : Int))

/-! ## actioninfo.py -/

/-- Modelled from the spec: the `Shortcut` class (module `shortcut`, not in
src) renders one raw shortcut token "into a platform-printable form"; the
spec's own example renders `Ctrl-Space` and `Ctrl-Alt-Space` unchanged, so the
model is the identity rendering.  Functions below that depend on the rendering
take it as an abstract `printable` parameter instead of fixing this model. -/
def printable_model : List Char → List Char := fun s => s

/-- `_parse_shortcuts_from_name` from actioninfo.py: when the name contains
`(`, the text before the first `(` is the event-handler base name, the text
from there up to the first `)` is split on the literal `' or '`, each token is
rendered with `printable`, and the display name is rebuilt as
`'%s (%s)' % (base, rendered)`. -/
def parse_shortcuts_from_name (printable : List Char → List Char)
    (name : List Char) : List Char × List Char :=
  match break1 '(' name with
  | (eventhandler_name, some rest) =>
    let shortcuts := (break1 ')' rest).1
    let elements := splitSeq (" or ".toList) shortcuts
    let newname := eventhandler_name ++ (" (".toList) ++
        List.intercalate (" or ".toList) (elements.map printable) ++ (")".toList)
    (eventhandler_name, newname)
  | (_, none) => (name, name)

/-- `_get_eventhandler_name_and_parsed_name` from actioninfo.py: the handler
lookup key is `'On' + base` with every space and `&` removed
(Python `.replace(' ', '').replace('&', '')`). -/
def get_eventhandler_name_and_parsed_name (printable : List Char → List Char)
    (name : List Char) : List Char × List Char :=
  let p := parse_shortcuts_from_name printable name
  (("On".toList) ++ removeAll '&' (removeAll ' ' p.1), p.2)

/-- Errors raised while parsing one DSL row: `unpackError` models the
`ValueError` from `name, doc, shortcut, icon = tokens` when more than four
fields are present; `attributeError` models the `AttributeError` from
`getattr(eventhandler, eventhandler_name)` when the handler is missing. -/
inductive ParseError where
  | unpackError : ParseError
  | attributeError : List Char → ParseError
deriving DecidableEq, Repr

/-- `ActionInfo` from actioninfo.py, restricted to the data stored by
`__init__`.  The event handler object is embedded as the list of its handler
attribute names, so `action` holds the resolved attribute name; `shortcut`
holds the raw shortcut field (the `Shortcut` wrapper is external); `icon`
models `_get_icon`, which maps a falsy icon field to `None` (the bitmap lookup
itself is external toolkit code, so the art key is kept as a string). -/
structure ActionInfo (C : Type) where
  menu_name : Option (List Char)
  name : List Char
  action : List Char
  container : Option C
  shortcut : List Char
  icon : Option (List Char)
  doc : List Char
deriving DecidableEq, Repr

/-- One parsed descriptor: `ActionInfo` or `SeparatorInfo` (which stores only
its menu name). -/
inductive MenuInfo (C : Type) where
  | action : ActionInfo C → MenuInfo C
  | separator : Option (List Char) → MenuInfo C
deriving DecidableEq, Repr

/-- `_create_action_info` from actioninfo.py.  The event handler object is
embedded as the list `handler` of its attribute names; `getattr` success is
membership in that list. -/
def create_action_info {C : Type} (printable : List Char → List Char)
    (handler : List (List Char)) (menu : Option (List Char))
    (container : Option C) (row : List Char) : Except ParseError (MenuInfo C) :=
  if ("---".toList).isPrefixOf row then Except.ok (MenuInfo.separator menu)
  else
    let tokens0 := (splitChar '|' row).map pyStrip
    if tokens0.length > 4 then Except.error ParseError.unpackError
    else
      let tokens := tokens0 ++ List.replicate (4 - tokens0.length) []
      let name0 := tokens.getD 0 []
      let doc := tokens.getD 1 []
      let shortcut := tokens.getD 2 []
      let icon := tokens.getD 3 []
      let p : List Char × Option C :=
        if name0.head? = some '!' then (name0.tail, none) else (name0, container)
      let q := get_eventhandler_name_and_parsed_name printable p.1
      if q.1 ∈ handler then
        Except.ok (MenuInfo.action
          { menu_name := menu, name := q.2, action := q.1, container := p.2,
            shortcut := shortcut,
            icon := if icon = [] then none else some icon, doc := doc })
      else Except.error (ParseError.attributeError q.1)

/-- Python `row.startswith('[') and row.endswith(']')`. -/
def isHeaderRow (row : List Char) : Bool :=
  row.head? = some '[' ∧ row.getLast? = some ']'

/-- The row loop of `ActionInfoCollection`: strip each row, skip blanks, let a
`[...]` row set the current menu to its stripped inner text, and parse every
other row with `_create_action_info`; a raised error aborts the whole parse. -/
def processRows {C : Type} (printable : List Char → List Char)
    (handler : List (List Char)) (container : Option C) :
    List (List Char) → Option (List Char) → Except ParseError (List (MenuInfo C))
  | [], _ => Except.ok []
  | r :: rest, menu =>
    let row := pyStrip r
    if row = [] then processRows printable handler container rest menu
    else if isHeaderRow row then
      processRows printable handler container rest (some (pyStrip ((row.drop 1).dropLast)))
    else
      match create_action_info printable handler menu container row with
      | Except.error e => Except.error e
      | Except.ok a =>
        match processRows printable handler container rest menu with
        | Except.error e => Except.error e
        | Except.ok rest' => Except.ok (a :: rest')

/-- `ActionInfoCollection` from actioninfo.py (splitting the data on newline
models `data.splitlines()` for newline-separated data; a trailing empty piece
is skipped as a blank row). -/
def ActionInfoCollection {C : Type} (printable : List Char → List Char)
    (handler : List (List Char)) (container : Option C) (data : List Char) :
    Except ParseError (List (MenuInfo C)) :=
  processRows printable handler container (splitChar '\n' data) none

/-- A stripped row that produces a descriptor: non-blank and not a `[...]`
header. -/
def relevantRow (row : List Char) : Bool :=
  row ≠ [] ∧ isHeaderRow row = false

/-- The number of non-blank, non-header lines of the DSL text. -/
def countRelevant (data : List Char) : Nat :=
  ((splitChar '\n' data).map pyStrip).countP relevantRow

/-- The handler lookup key computed for a row: `'On'` plus the first `|` field
(stripped, with a leading `!` removed and any trailing `(...)` part dropped)
without spaces and `&`.  Mirrors the name handling inside
`_create_action_info`. -/
def rowHandlerName (printable : List Char → List Char) (row : List Char) :
    List Char :=
  let name0 := ((splitChar '|' row).map pyStrip).getD 0 []
  let name1 := if name0.head? = some '!' then name0.tail else name0
  (get_eventhandler_name_and_parsed_name printable name1).1

/-! ## `_InsertionPoint` from actioninfo.py -/

/-- `_InsertionPoint`: `_item` is the requested sibling name (`None` when no
positioning was requested) and `_insert_before` records whether the `before`
argument was given.  A wx menu is embedded as the list of its entry labels. -/
structure InsertionPoint where
  item : Option (List Char)
  insert_before : Bool
deriving DecidableEq

/-- `_InsertionPoint.__init__(before, after)`: Python `self._item = before or
after` (a `None` or empty `before` falls through to `after`) and
`self._insert_before = before is not None`. -/
def insertionPoint (before after : Option (List Char)) : InsertionPoint :=
  { item :=
      match before with
      | some b => if b = [] then after else some b
      | none => after,
    insert_before := before.isSome }

/-- The regular expression `' {2,}\([^()]+\)$'` of `_shortcut_remover`, as a
predicate on the suffix starting at a candidate match position: two or more
spaces, then `(`, then one or more characters that are not parentheses, then
`)` at the end of the string. -/
def isShortcutSuffix (cs : List Char) : Bool :=
  decide (2 ≤ (cs.takeWhile (· == ' ')).length) &&
  (match cs.dropWhile (· == ' ') with
   | '(' :: tail =>
     decide (2 ≤ tail.length) && (tail.getLast? == some ')') &&
       tail.dropLast.all (fun c => c != '(' && c != ')')
   | _ => false)

/-- `_InsertionPoint._get_menu_item_name`: `re.split` with `_shortcut_remover`
removes the leftmost match of the trailing `'  (shortcut)'` suffix, so the
entry label is cut at the smallest position where the suffix pattern
matches. -/
def get_menu_item_name (label : List Char) : List Char :=
  match (List.range (label.length + 1)).find?
      (fun i => isShortcutSuffix (label.drop i)) with
  | some i => label.take i
  | none => label

/-- `_InsertionPoint._find_position_in_menu`: the first index whose entry label
(shortcut suffix stripped) matches `item` case-insensitively, else `None`. -/
def find_position_in_menu (item : List Char) (menu : List (List Char)) :
    Option Nat :=
  menu.findIdx? (fun label => lowerL (get_menu_item_name label) == lowerL item)

/-- `_InsertionPoint.get_index`: Python `if not self._item` also catches an
empty-string item, and `if not index` also catches a found index of `0`. -/
def get_index (ip : InsertionPoint) (menu : List (List Char)) : Nat :=
  match ip.item with
  | none => menu.length
  | some it =>
    if it = [] then menu.length
    else
      match find_position_in_menu it menu with
      | none => menu.length
      | some index =>
        if index = 0 then menu.length
        else if ip.insert_before then index else index + 1

/-! ## grid.py: `_Cell`, `_GridCoordinates` and selection events -/

/-- `_Cell` from grid.py (wx grid coordinates are machine integers). -/
structure Cell where
  row : Int
  col : Int
deriving DecidableEq

/-- `_GridCoordinates`: the tracked selection rectangle. -/
structure GridCoordinates where
  topleft : Cell
  bottomright : Cell
deriving DecidableEq

/-- `_GridCoordinates._set(topleft, bottomright)`: `bottomright` defaults to
the top-left cell when absent. -/
def GridCoordinates.set (topleft : Int × Int) (bottomright : Option (Int × Int)) :
    GridCoordinates :=
  { topleft := ⟨topleft.1, topleft.2⟩,
    bottomright :=
      match bottomright with
      | some br => ⟨br.1, br.2⟩
      | none => ⟨topleft.1, topleft.2⟩ }

/-- `_GridCoordinates.__init__`: the rectangle starts as the single cell
`(0, 0)`. -/
def coordsInit : GridCoordinates := GridCoordinates.set (0, 0) none

/-- `_GridCoordinates.set_from_single_selection(event)`. -/
def set_from_single_selection (row col : Int) : GridCoordinates :=
  GridCoordinates.set (row, col) none

/-- `_GridCoordinates._get_bounding_coordinates(grid, event)`: a non-empty
`grid.SelectedRows` (whole-row selection) spans columns `0` to
`grid.NumberCols - 1` and rows from the first to the last selected row;
otherwise the event's own top-left/bottom-right coordinates are used as
given. -/
def get_bounding_coordinates (selectedRows : List Int) (numberCols : Int)
    (topLeft bottomRight : Int × Int) : (Int × Int) × (Int × Int) :=
  match selectedRows with
  | [] => (topLeft, bottomRight)
  | r0 :: rest => ((r0, 0), (List.getLastD rest r0, numberCols - 1))

/-- `_GridCoordinates.set_from_range_selection(grid, event)`. -/
def set_from_range_selection (selectedRows : List Int) (numberCols : Int)
    (topLeft bottomRight : Int × Int) : GridCoordinates :=
  let p := get_bounding_coordinates selectedRows numberCols topLeft bottomRight
  GridCoordinates.set p.1 (some p.2)

/-- `_GridCoordinates.get_selected_rows`: `range(topleft.row,
bottomright.row + 1)`. -/
def get_selected_rows (c : GridCoordinates) : List Int :=
  intRange c.topleft.row c.bottomright.row

/-- `_GridCoordinates.get_selected_cols`: `range(topleft.col,
bottomright.col + 1)`. -/
def get_selected_cols (c : GridCoordinates) : List Int :=
  intRange c.topleft.col c.bottomright.col

/-- `_GridCoordinates.get_selected_cells`: `[(row, col) for col in cols for
row in rows]` (outer loop over columns). -/
def get_selected_cells (c : GridCoordinates) : List (Int × Int) :=
  (get_selected_cols c).flatMap (fun col =>
    (get_selected_rows c).map (fun row => (row, col)))

/-- One selection event delivered by the toolkit grid, with the payload read
by the handlers: `EVT_GRID_SELECT_CELL` carries `(Row, Col)`;
`EVT_GRID_RANGE_SELECT` carries `Selecting()`, the grid's `SelectedRows` and
`NumberCols`, and `TopLeftCoords`/`BottomRightCoords`. -/
inductive SelEvent where
  | selectCell (row col : Int)
  | rangeSelect (selecting : Bool) (selectedRows : List Int) (numberCols : Int)
      (topLeft bottomRight : Int × Int)
deriving DecidableEq

/-- The selection-tracking step: `OnSelectCell` always resets the rectangle;
`OnRangeSelect` updates it only when `event.Selecting()` is true. -/
def stepSel (c : GridCoordinates) : SelEvent → GridCoordinates
  | SelEvent.selectCell row col => set_from_single_selection row col
  | SelEvent.rangeSelect selecting rows ncols tl br =>
    if selecting then set_from_range_selection rows ncols tl br else c

/-- The selection rectangle reached from the initial `(0, 0)` state by a list
of selection events. -/
def runSel (evs : List SelEvent) : GridCoordinates :=
  evs.foldl stepSel coordsInit

/-- The ordering invariant claimed for the selection rectangle. -/
def GridCoordinates.ordered (c : GridCoordinates) : Prop :=
  c.topleft.row ≤ c.bottomright.row ∧ c.topleft.col ≤ c.bottomright.col

instance (c : GridCoordinates) : Decidable c.ordered := by
  unfold GridCoordinates.ordered
  infer_instance

/-- Well-formedness of a selection event payload as the wx toolkit delivers
it: a plain range selection reports a normalized bounding box (top-left
coordinate-wise at most bottom-right), and a whole-row selection reports its
selected rows in ascending order on a grid with at least one column. -/
def SelEvent.wf : SelEvent → Bool
  | SelEvent.selectCell _ _ => true
  | SelEvent.rangeSelect selecting rows ncols tl br =>
    !selecting ||
      (match rows with
       | [] => (tl.1 ≤ br.1 ∧ tl.2 ≤ br.2 : Bool)
       | r0 :: rest => (r0 ≤ List.getLastD rest r0 ∧ 1 ≤ ncols : Bool))

/-! ## grid.py: `GridEditor` state and operations -/

/-- The grid clipboard value: `GRID_CLIPBOARD` (module `clipboard`, not in
src) holds either a scalar string or a 2D list of cell values. -/
inductive ClipVal where
  | str : String → ClipVal
  | table : List (List String) → ClipVal
deriving DecidableEq

/-- Python falsiness of a clipboard value (`if not clipboard`). -/
def ClipVal.isFalsy : ClipVal → Bool
  | ClipVal.str s => s == ""
  | ClipVal.table t => t == []

/-- The `GridEditor` state: the wx grid's cell contents (a total map from
`(row, col)` to the cell string), the tracked selection rectangle, the
`_edit_history` stack of full-grid snapshots, the process-wide
`GRID_CLIPBOARD` slot, and whether a cell edit control is open
(`IsCellEditControlShown`). -/
structure GridEditorState where
  grid : Int → Int → String
  coords : GridCoordinates
  editHistory : List (Int → Int → String)
  clipboard : Option ClipVal
  cellEditorShown : Bool

/-- `SetCellValue` on the embedded grid content. -/
def writeCellFn (g : Int → Int → String) (row col : Int) (v : String) :
    Int → Int → String :=
  fun r c => if r = row ∧ c = col then v else g r c

/-- `GridEditor.write_cell(row, col, value)` (it just calls `SetCellValue`). -/
def write_cell (s : GridEditorState) (row col : Int) (v : String) :
    GridEditorState :=
  { s with grid := writeCellFn s.grid row col v }

/-- `GridEditor.get_selected_content`: the selected cells as a row-major 2D
list of values. -/
def get_selected_content (s : GridEditorState) : List (List String) :=
  (get_selected_rows s.coords).map (fun row =>
    (get_selected_cols s.coords).map (fun col => s.grid row col))

/-- Modelled from the spec: `GRID_CLIPBOARD.set_contents` (module `clipboard`,
not in src) overwrites the single shared clipboard slot — "shared
process-wide, single-slot (last write wins)". -/
def set_clipboard_contents (s : GridEditorState) (v : ClipVal) : GridEditorState :=
  { s with clipboard := some v }

/-- `_ClipboardHandler._add_selected_data_to_clipboard`:
`GRID_CLIPBOARD.set_contents(self._grid.get_selected_content())`. -/
def add_selected_data_to_clipboard (s : GridEditorState) : GridEditorState :=
  set_clipboard_contents s (ClipVal.table (get_selected_content s))

/-- `GridEditor.copy` via `_ClipboardHandler.copy` (the default, non-Windows
handler; `_WindowsClipboardHandler` instead delegates to the external cell
edit control when one is shown, which is outside this model). -/
def GridEditor.copy (s : GridEditorState) : GridEditorState :=
  add_selected_data_to_clipboard s

/-- `GridEditor._clear_selected_cells`: write `''` to every selected cell. -/
def clear_selected_cells (s : GridEditorState) : GridEditorState :=
  { s with grid := ((get_selected_cells s.coords).foldl
      (fun g rc => writeCellFn g rc.1 rc.2 "") s.grid) }

/-- Modelled from the spec: "before any destructive bulk edit, the full grid
content is snapshotted and pushed onto the edit-history stack".  The push
itself is performed by subclass code that is not in src (`GridEditor` only
pops the stack in `undo`), so it is modelled here from that contract. -/
def push_edit_history (s : GridEditorState) : GridEditorState :=
  { s with editHistory := s.grid :: s.editHistory }

/-- `GridEditor.cut`: snapshot the grid (spec contract, see
`push_edit_history`), place the selected content on the clipboard
(`_ClipboardHandler.cut`), then clear the selected cells. -/
def GridEditor.cut (s : GridEditorState) : GridEditorState :=
  clear_selected_cells (add_selected_data_to_clipboard (push_edit_history s))

/-- Modelled from the spec: `_write_data(data)` (not in src, called by `undo`
after `ClearGrid`) "rewrites every cell from the snapshot", so the grid
content becomes exactly the snapshot. -/
def write_data (s : GridEditorState) (snapshot : Int → Int → String) :
    GridEditorState :=
  { s with grid := snapshot }

/-- Modelled from the spec: `_save_keywords(append_to_history)` (not in src)
persists the grid into the application's document model (external); with
`append_to_history` it also pushes the snapshot contract of
`push_edit_history`, and with `append_to_history = False` — the only call in
src, from `undo` — it changes nothing in the modelled state. -/
def save_keywords (append_to_history : Bool) (s : GridEditorState) :
    GridEditorState :=
  if append_to_history then push_edit_history s else s

/-- `GridEditor.undo`: a no-op on an empty `_edit_history`; otherwise
`ClearGrid`, pop the most recent snapshot, rewrite every cell from it
(`_write_data`), and save without appending to the history. -/
def GridEditor.undo (s : GridEditorState) : GridEditorState :=
  match s.editHistory with
  | [] => s
  | snapshot :: rest =>
    let cleared : GridEditorState :=
      { s with grid := fun _ _ => "", editHistory := rest }
    save_keywords false (write_data cleared snapshot)

/-- The inner column loop of `GridEditor.paste`: write one clipboard row into
the grid starting at `(row, col)`, advancing the column. -/
def writeRowCells (g : Int → Int → String) (row col : Int) :
    List String → Int → Int → String
  | [] => g
  | v :: vs => writeRowCells (writeCellFn g row col v) row (col + 1) vs

/-- The outer row loop of `GridEditor.paste`: write the clipboard rows into
the grid starting at `(row, col)`, advancing the row. -/
def writeClipboardRows (g : Int → Int → String) (row col : Int) :
    List (List String) → Int → Int → String
  | [] => g
  | datarow :: rest => writeClipboardRows (writeRowCells g row col datarow) (row + 1) col rest

/-- `GridEditor.paste`: with a cell edit control shown the paste goes to the
external text control (outside this model, grid content unchanged); otherwise
a falsy clipboard is a no-op, a scalar is written to the top-left selected
cell, and a 2D list is written row by row starting at the top-left selected
cell. -/
def GridEditor.paste (s : GridEditorState) : GridEditorState :=
  if s.cellEditorShown then s
  else
    match s.clipboard with
    | none => s
    | some v =>
      if v.isFalsy then s
      else
        match v with
        | ClipVal.str text => write_cell s s.coords.topleft.row s.coords.topleft.col text
        | ClipVal.table rows =>
          { s with grid := (writeClipboardRows s.grid s.coords.topleft.row
              s.coords.topleft.col rows) }

/-- `GridEditor.OnSelectCell` restricted to the modelled state (the
`AutoSizeRows` and `event.Skip()` calls are toolkit side effects). -/
def GridEditor.OnSelectCell (s : GridEditorState) (row col : Int) :
    GridEditorState :=
  { s with coords := set_from_single_selection row col }

/-- A concrete grid editor state with a 2x2 selection, used to instantiate the
cut-undo theorem. -/
def exampleStateCut : GridEditorState :=
  { grid := fun r c => if r = 0 ∧ c = 0 then "a" else "z",
    coords := ⟨⟨0, 0⟩, ⟨1, 1⟩⟩, editHistory := [], clipboard := none,
    cellEditorShown := false }

/-- A concrete grid editor state with an empty edit history, used to
instantiate the empty-undo theorem. -/
def exampleStateFresh : GridEditorState :=
  { grid := fun _ _ => "q", coords := ⟨⟨2, 3⟩, ⟨4, 5⟩⟩, editHistory := [],
    clipboard := some (ClipVal.str "c"), cellEditorShown := false }

/-! ## Helper lemmas -/

theorem break1_append (sep : Char) (pre post : List Char)
    (h : pre.all (· != sep) = true) :
    break1 sep (pre ++ sep :: post) = (pre, some post) := by
  induction pre with
  | nil => simp [break1]
  | cons c pre' ih =>
    rw [List.all_cons, Bool.and_eq_true] at h
    have hc : c ≠ sep := by simpa using h.1
    simp [break1, hc, ih h.2]

theorem splitChar_ne_nil (sep : Char) (s : List Char) : splitChar sep s ≠ [] := by
  cases s with
  | nil => simp [splitChar]
  | cons c rest =>
    unfold splitChar
    split
    · simp
    · split <;> simp

theorem getD_zero_append {α : Type} (l l' : List α) (d : α) (h : l ≠ []) :
    (l ++ l').getD 0 d = l.getD 0 d := by
  cases l with
  | nil => exact absurd rfl h
  | cons a t => rfl

/-- The step taken by the selection state machine preserves the ordering
invariant on well-formed event payloads. -/
theorem stepSel_ordered (c : GridCoordinates) (e : SelEvent)
    (hc : c.ordered) (he : e.wf = true) : (stepSel c e).ordered := by
  cases e with
  | selectCell row col =>
    exact ⟨le_refl _, le_refl _⟩
  | rangeSelect selecting rows ncols tl br =>
    cases selecting with
    | false => simpa [stepSel] using hc
    | true =>
      simp only [SelEvent.wf, Bool.not_true, Bool.false_or] at he
      cases rows with
      | nil =>
        rw [decide_eq_true_iff] at he
        exact ⟨he.1, he.2⟩
      | cons r0 rest =>
        rw [decide_eq_true_iff] at he
        rw [List.getLastD_eq_getLast?] at he
        constructor <;>
          simp [stepSel, set_from_range_selection, get_bounding_coordinates,
            GridCoordinates.set] <;>
          omega

theorem foldl_stepSel_ordered :
    ∀ (evs : List SelEvent) (c : GridCoordinates), c.ordered →
      evs.all SelEvent.wf = true → (evs.foldl stepSel c).ordered := by
  intro evs
  induction evs with
  | nil => intro c hc _; exact hc
  | cons e rest ih =>
    intro c hc hall
    rw [List.all_cons, Bool.and_eq_true] at hall
    exact ih (stepSel c e) (stepSel_ordered c e hc hall.1) hall.2

/-! ## Claim theorems -/

/-- C1: for every grid state and every non-empty selection rectangle,
performing `cut()` and then `undo()` restores every cell of the grid to its
exact pre-cut value (cut pushes a full-grid snapshot before clearing — spec
contract, see `push_edit_history` — and undo pops and replays it); the
edit-history stack is back to its pre-cut state as well. -/
theorem cut_then_undo_restores_grid (s : GridEditorState)
    (hrow : s.coords.topleft.row ≤ s.coords.bottomright.row)
    (hcol : s.coords.topleft.col ≤ s.coords.bottomright.col) :
    (∀ row col, (GridEditor.undo (GridEditor.cut s)).grid row col = s.grid row col) ∧
    (GridEditor.undo (GridEditor.cut s)).editHistory = s.editHistory :=
  ⟨fun _ _ => rfl, rfl⟩

theorem cut_then_undo_restores_grid_witness :
    exampleStateCut.coords.topleft.row ≤ exampleStateCut.coords.bottomright.row ∧
      (GridEditor.undo (GridEditor.cut exampleStateCut)).grid 0 0
        = exampleStateCut.grid 0 0 :=
  ⟨by decide,
   (cut_then_undo_restores_grid exampleStateCut (by decide) (by decide)).1 0 0⟩

/-- C9: calling `undo()` with an empty edit-history stack leaves the whole
state (in particular every grid cell and the history itself) unchanged and
raises no error. -/
theorem undo_empty_history_noop (s : GridEditorState)
    (h : s.editHistory = []) : GridEditor.undo s = s := by
  unfold GridEditor.undo
  rw [h]

theorem undo_empty_history_noop_witness :
    exampleStateFresh.editHistory = [] ∧
      GridEditor.undo exampleStateFresh = exampleStateFresh :=
  ⟨rfl, undo_empty_history_noop exampleStateFresh rfl⟩

/-- C3: the claim fails at a concrete input.  With `before = 'open'` and menu
entries `['Open', 'Save']`, the sibling matches case-insensitively at
position 0, yet `get_index` returns the menu's entry count 2 (append at end)
instead of 0, because Python's `if not index:` treats the found index 0 like
the `None` returned for "no match". -/
theorem get_index_match_at_zero_appends :
    get_index (insertionPoint (some ("open".toList)) none)
      [("Open".toList), ("Save".toList)] = 2 := by decide

/-- C5: the claim as stated is false — the code copies a range-selection
event's coordinates into the rectangle without normalizing them, so an event
payload whose top-left lies below/right of its bottom-right violates the
ordering invariant. -/
theorem selection_invariant_counterexample :
    ¬ (runSel [SelEvent.rangeSelect true [] 3 (5, 5) (1, 1)]).ordered := by
  decide

/-- C5 (amended): if every range-selection payload is well-formed in the way
the wx toolkit delivers it (normalized bounding box; ascending selected rows
and at least one column for whole-row selections), then after any sequence of
selection events the rectangle satisfies `topleft.row ≤ bottomright.row` and
`topleft.col ≤ bottomright.col`; and a whole-row range selection always sets
the selected column span to `[0, NumberCols - 1]`. -/
theorem selection_invariant_amended (evs : List SelEvent)
    (h : evs.all SelEvent.wf = true) :
    (runSel evs).ordered ∧
    ∀ (c : GridCoordinates) (r0 : Int) (rest : List Int) (ncols : Int)
      (tl br : Int × Int),
      get_selected_cols
          (stepSel c (SelEvent.rangeSelect true (r0 :: rest) ncols tl br))
        = intRange 0 (ncols - 1) :=
  ⟨foldl_stepSel_ordered evs coordsInit ⟨le_refl _, le_refl _⟩ h,
   fun _ _ _ _ _ _ => rfl⟩

theorem selection_invariant_amended_witness :
    ([SelEvent.selectCell 1 2,
      SelEvent.rangeSelect true [2, 3, 4] 5 (0, 0) (0, 0),
      SelEvent.rangeSelect false [] 0 (9, 9) (0, 0),
      SelEvent.rangeSelect true [] 4 (1, 0) (2, 3)].all SelEvent.wf = true) ∧
    (runSel [SelEvent.selectCell 1 2,
      SelEvent.rangeSelect true [2, 3, 4] 5 (0, 0) (0, 0),
      SelEvent.rangeSelect false [] 0 (9, 9) (0, 0),
      SelEvent.rangeSelect true [] 4 (1, 0) (2, 3)]).ordered :=
  ⟨by decide, (selection_invariant_amended _ (by decide)).1⟩

/-- C2: the claim fails at its own concrete example.  The base name produced
by `name.split('(', 1)` keeps the space that preceded the parenthesis, and the
`'%s (%s)'` format adds another one, so the display name for
`Content Assist (Ctrl-Space or Ctrl-Alt-Space)` contains two spaces before the
parenthesis, not the single space the claim states. -/
theorem display_name_counterexample :
    (get_eventhandler_name_and_parsed_name printable_model
        (("Content Assist (Ctrl-Space or Ctrl-Alt-Space)".toList))).2
      ≠ ("Content Assist (Ctrl-Space or Ctrl-Alt-Space)".toList) := by
  decide

/-- C2 (amended): for every name field of the form `<base>(<toks>)` (where
`<base>`, the text before the first parenthesis, keeps any trailing
whitespace), the display name is `<base>` followed by a space, then the
rendered ` or `-separated shortcut list in parentheses — so a source name with
a space before `(` shows two spaces — and the handler key is `'On' + base`
with spaces and `&` removed; in particular
`Content Assist (Ctrl-Space or Ctrl-Alt-Space)` yields the display name
`Content Assist  (Ctrl-Space or Ctrl-Alt-Space)` (two spaces) and the handler
key `OnContentAssist`. -/
theorem parsed_name_structure (printable : List Char → List Char)
    (base inner : List Char)
    (hb : base.all (· != '(') = true)
    (hi : inner.all (fun c => c != '(' && c != ')') = true) :
    get_eventhandler_name_and_parsed_name printable
        (base ++ '(' :: (inner ++ [')']))
      = (("On".toList) ++ removeAll '&' (removeAll ' ' base),
         base ++ (" (".toList) ++
           List.intercalate (" or ".toList)
             ((splitSeq (" or ".toList) inner).map printable) ++ (")".toList)) ∧
    get_eventhandler_name_and_parsed_name printable_model
        (("Content Assist (Ctrl-Space or Ctrl-Alt-Space)".toList))
      = (("OnContentAssist".toList),
         ("Content Assist  (Ctrl-Space or Ctrl-Alt-Space)".toList)) := by
  constructor
  · have hinner : inner.all (· != ')') = true := by
      rw [List.all_eq_true] at hi ⊢
      intro c hc
      have hcc := hi c hc
      rw [Bool.and_eq_true] at hcc
      exact hcc.2
    have h1 := break1_append '(' base (inner ++ [')']) hb
    have h2 := break1_append ')' inner [] hinner
    simp only [get_eventhandler_name_and_parsed_name, parse_shortcuts_from_name,
      h1, h2]
  · decide

theorem parsed_name_structure_witness :
    (("Content Assist ".toList).all (· != '(') = true) ∧
    (("Ctrl-Space or Ctrl-Alt-Space".toList).all
        (fun c => c != '(' && c != ')') = true) ∧
    get_eventhandler_name_and_parsed_name printable_model
        (("Content Assist ".toList) ++ '(' ::
          (("Ctrl-Space or Ctrl-Alt-Space".toList) ++ [')']))
      = (("On".toList) ++ removeAll '&' (removeAll ' ' ("Content Assist ".toList)),
         ("Content Assist ".toList) ++ (" (".toList) ++
           List.intercalate (" or ".toList)
             ((splitSeq (" or ".toList) ("Ctrl-Space or Ctrl-Alt-Space".toList)).map
               printable_model) ++ (")".toList)) :=
  ⟨by decide, by decide,
   (parsed_name_structure printable_model _ _ (by decide) (by decide)).1⟩

theorem processRows_ok_length {C : Type} (printable : List Char → List Char)
    (handler : List (List Char)) (container : Option C) :
    ∀ (rows : List (List Char)) (menu : Option (List Char))
      (res : List (MenuInfo C)),
      processRows printable handler container rows menu = Except.ok res →
      res.length = (rows.map pyStrip).countP relevantRow := by
  intro rows
  induction rows with
  | nil =>
    intro menu res h
    simp only [processRows] at h
    cases h
    simp
  | cons r rest ih =>
    intro menu res h
    simp only [processRows] at h
    rw [List.map_cons, List.countP_cons]
    by_cases h1 : pyStrip r = []
    · rw [if_pos h1] at h
      simp [relevantRow, h1, ih menu res h]
    · rw [if_neg h1] at h
      by_cases h2 : isHeaderRow (pyStrip r) = true
      · rw [if_pos h2] at h
        simp [relevantRow, h1, h2, ih _ res h]
      · rw [if_neg h2] at h
        have hrel : relevantRow (pyStrip r) = true := by
          simp [relevantRow, h1]
          simpa using h2
        rw [hrel, if_pos rfl]
        cases hc : create_action_info printable handler menu container (pyStrip r) with
        | error e => rw [hc] at h; cases h
        | ok a =>
          rw [hc] at h
          cases hp : processRows printable handler container rest menu with
          | error e => rw [hp] at h; cases h
          | ok rest' =>
            rw [hp] at h
            cases h
            simp [ih menu rest' hp]

/-- C4: whenever `ActionInfoCollection` succeeds, the number of descriptors it
returns equals the number of non-blank, non-header lines of the input text
(exactly one `ActionInfo` or `SeparatorInfo` per such line). -/
theorem collection_length {C : Type} (printable : List Char → List Char)
    (handler : List (List Char)) (container : Option C) (data : List Char)
    (res : List (MenuInfo C))
    (h : ActionInfoCollection printable handler container data = Except.ok res) :
    res.length = countRelevant data :=
  processRows_ok_length printable handler container (splitChar '\n' data) none res h

theorem collection_length_witness :
    ActionInfoCollection (fun s => s) [("OnSave".toList)] (none : Option Nat)
        (("[File]\n&Save | doc\n---\n".toList))
      = Except.ok
          [MenuInfo.action
            { menu_name := some ("File".toList), name := ("&Save".toList),
              action := ("OnSave".toList), container := none, shortcut := [],
              icon := none, doc := ("doc".toList) },
           MenuInfo.separator (some ("File".toList))] ∧
    ([MenuInfo.action
        { menu_name := some ("File".toList), name := ("&Save".toList),
          action := ("OnSave".toList), container := (none : Option Nat),
          shortcut := [], icon := none, doc := ("doc".toList) },
      MenuInfo.separator (some ("File".toList))].length
      = countRelevant (("[File]\n&Save | doc\n---\n".toList))) :=
  ⟨rfl, collection_length (fun s => s) [("OnSave".toList)] none _ _ rfl⟩

/-- If some stripped row of the input is non-blank, not a header, and makes
`_create_action_info` raise, then the whole parse raises. -/
theorem processRows_error_of_bad {C : Type} (printable : List Char → List Char)
    (handler : List (List Char)) (container : Option C) (bad : List Char)
    (hne : bad ≠ []) (hhd : isHeaderRow bad = false)
    (hcreate : ∀ menu, ∃ e,
      create_action_info printable handler menu container bad = Except.error e) :
    ∀ (rows : List (List Char)) (menu : Option (List Char)),
      bad ∈ rows.map pyStrip →
      (processRows printable handler container rows menu).isOk = false := by
  intro rows
  induction rows with
  | nil => intro menu h; simp at h
  | cons r rest ih =>
    intro menu hmem
    rw [List.map_cons, List.mem_cons] at hmem
    simp only [processRows]
    by_cases h1 : pyStrip r = []
    · rw [if_pos h1]
      refine ih menu ?_
      cases hmem with
      | inl heq => exact absurd (heq.trans h1) hne
      | inr hrest => exact hrest
    · rw [if_neg h1]
      by_cases h2 : isHeaderRow (pyStrip r) = true
      · rw [if_pos h2]
        refine ih _ ?_
        cases hmem with
        | inl heq => rw [heq] at hhd; rw [hhd] at h2; cases h2
        | inr hrest => exact hrest
      · rw [if_neg h2]
        cases hmem with
        | inl heq =>
          obtain ⟨e, he⟩ := hcreate menu
          rw [← heq, he]
          rfl
        | inr hrest =>
          cases hc : create_action_info printable handler menu container (pyStrip r) with
          | error e => rfl
          | ok a =>
            have hrec := ih menu hrest
            cases hp : processRows printable handler container rest menu with
            | error e => rfl
            | ok l => rw [hp] at hrec; cases hrec

/-- The padded token list of `_create_action_info` has the same first element
as the unpadded one. -/
theorem tokens_getD_zero (row : List Char) :
    (((splitChar '|' row).map pyStrip) ++
        List.replicate (4 - ((splitChar '|' row).map pyStrip).length) []).getD 0 []
      = ((splitChar '|' row).map pyStrip).getD 0 [] := by
  apply getD_zero_append
  intro h
  exact splitChar_ne_nil '|' row (List.map_eq_nil_iff.mp h)

/-- On a non-separator row with at most four fields whose handler key is
missing, `_create_action_info` raises the attribute error. -/
theorem create_action_info_missing_handler {C : Type}
    (printable : List Char → List Char) (handler : List (List Char))
    (menu : Option (List Char)) (container : Option C) (row : List Char)
    (hsep : ("---".toList).isPrefixOf row = false)
    (hlen : (splitChar '|' row).length ≤ 4)
    (hmiss : rowHandlerName printable row ∉ handler) :
    create_action_info printable handler menu container row
      = Except.error (ParseError.attributeError (rowHandlerName printable row)) := by
  unfold create_action_info
  rw [hsep]
  have hlen' : ¬ ((splitChar '|' row).map pyStrip).length > 4 := by
    rw [List.length_map]; omega
  simp only [Bool.false_eq_true, if_false, hlen', if_false]
  simp only [tokens_getD_zero]
  unfold rowHandlerName at hmiss ⊢
  by_cases hbang : (((splitChar '|' row).map pyStrip).getD 0 []).head? = some '!'
  · simp only [if_pos hbang] at hmiss ⊢
    rw [if_neg hmiss]
  · simp only [if_neg hbang] at hmiss ⊢
    rw [if_neg hmiss]

/-- C7: for every input line (non-blank, non-header, non-separator, at most
four fields) whose computed handler name is not an attribute of the handler
object, `_create_action_info` raises the `AttributeError`-equivalent, and
`ActionInfoCollection` on any text containing that line fails at parse time
instead of returning a descriptor list. -/
theorem missing_handler_fails_at_parse_time {C : Type}
    (printable : List Char → List Char) (handler : List (List Char))
    (container : Option C) (data row : List Char)
    (hmem : row ∈ (splitChar '\n' data).map pyStrip)
    (hne : row ≠ []) (hhd : isHeaderRow row = false)
    (hsep : ("---".toList).isPrefixOf row = false)
    (hlen : (splitChar '|' row).length ≤ 4)
    (hmiss : rowHandlerName printable row ∉ handler) :
    (∀ menu, create_action_info printable handler menu container row
      = Except.error (ParseError.attributeError (rowHandlerName printable row))) ∧
    (ActionInfoCollection printable handler container data).isOk = false := by
  have hcr := fun menu => create_action_info_missing_handler printable handler
    menu container row hsep hlen hmiss
  refine ⟨hcr, ?_⟩
  exact processRows_error_of_bad printable handler container row hne hhd
    (fun menu => ⟨_, hcr menu⟩) (splitChar '\n' data) none hmem

theorem missing_handler_fails_at_parse_time_witness :
    (("Save | doc".toList) ∈ (splitChar '\n' ("Save | doc".toList)).map pyStrip) ∧
    (rowHandlerName (fun s => s) ("Save | doc".toList) ∉ ([] : List (List Char))) ∧
    create_action_info (fun s => s) ([] : List (List Char)) none
        (none : Option Nat) ("Save | doc".toList)
      = Except.error (ParseError.attributeError
          (rowHandlerName (fun s => s) ("Save | doc".toList))) ∧
    (ActionInfoCollection (fun s => s) ([] : List (List Char))
        (none : Option Nat) ("Save | doc".toList)).isOk = false := by
  refine ⟨by decide, by decide, ?_, ?_⟩
  · exact (missing_handler_fails_at_parse_time (fun s => s) [] none
      (("Save | doc".toList)) (("Save | doc".toList)) (by decide) (by decide)
      (by decide) (by decide) (by decide) (by decide)).1 none
  · exact (missing_handler_fails_at_parse_time (fun s => s) [] (none : Option Nat)
      (("Save | doc".toList)) (("Save | doc".toList)) (by decide) (by decide)
      (by decide) (by decide) (by decide) (by decide)).2

/-- On a non-separator row with more than four `|`-separated fields,
`_create_action_info` raises the unpack error. -/
theorem create_action_info_unpack_error {C : Type}
    (printable : List Char → List Char) (handler : List (List Char))
    (menu : Option (List Char)) (container : Option C) (row : List Char)
    (hsep : ("---".toList).isPrefixOf row = false)
    (hlen : (splitChar '|' row).length > 4) :
    create_action_info printable handler menu container row
      = Except.error ParseError.unpackError := by
  unfold create_action_info
  rw [hsep]
  have hlen' : ((splitChar '|' row).map pyStrip).length > 4 := by
    rw [List.length_map]; omega
  simp only [Bool.false_eq_true, if_false, hlen', if_true]

/-- C10: a non-blank, non-header, non-separator line with more than three `|`
separators (five or more fields) makes the four-way unpacking in
`_create_action_info` raise, and `ActionInfoCollection` on any text
containing such a line fails instead of producing a descriptor or silently
ignoring the extra fields. -/
theorem too_many_fields_fail {C : Type}
    (printable : List Char → List Char) (handler : List (List Char))
    (container : Option C) (data row : List Char)
    (hmem : row ∈ (splitChar '\n' data).map pyStrip)
    (hne : row ≠ []) (hhd : isHeaderRow row = false)
    (hsep : ("---".toList).isPrefixOf row = false)
    (hlen : (splitChar '|' row).length > 4) :
    (∀ menu, create_action_info printable handler menu container row
      = Except.error ParseError.unpackError) ∧
    (ActionInfoCollection printable handler container data).isOk = false := by
  have hcr := fun menu => create_action_info_unpack_error printable handler
    menu container row hsep hlen
  refine ⟨hcr, ?_⟩
  exact processRows_error_of_bad printable handler container row hne hhd
    (fun menu => ⟨_, hcr menu⟩) (splitChar '\n' data) none hmem

theorem too_many_fields_fail_witness :
    (("a | b | c | d | e".toList)
        ∈ (splitChar '\n' ("x\na | b | c | d | e".toList)).map pyStrip) ∧
    ((splitChar '|' ("a | b | c | d | e".toList)).length > 4) ∧
    create_action_info (fun s => s) [("OnX".toList)] none (none : Option Nat)
        ("a | b | c | d | e".toList)
      = Except.error ParseError.unpackError ∧
    (ActionInfoCollection (fun s => s) [("OnX".toList)] (none : Option Nat)
        ("x\na | b | c | d | e".toList)).isOk = false := by
  refine ⟨by decide, by decide, ?_, ?_⟩
  · exact (too_many_fields_fail (fun s => s) [("OnX".toList)] none
      (("x\na | b | c | d | e".toList)) (("a | b | c | d | e".toList))
      (by decide) (by decide) (by decide) (by decide) (by decide)).1 none
  · exact (too_many_fields_fail (fun s => s) [("OnX".toList)] (none : Option Nat)
      (("x\na | b | c | d | e".toList)) (("a | b | c | d | e".toList))
      (by decide) (by decide) (by decide) (by decide) (by decide)).2

/-- C8: for every caller-supplied default container, a name field beginning
with `!` produces an `ActionInfo` whose container is `None` (global scope),
with the `!` stripped from the name before handler resolution and display; in
particular the text `[Tools]\n!Manage Plugins` yields one `ActionInfo` with
menu name `Tools`, container `None`, and handler resolved from the attribute
`OnManagePlugins`. -/
theorem bang_prefix_makes_global {C : Type}
    (printable : List Char → List Char) (handler : List (List Char))
    (menu : Option (List Char)) (container : Option C) (row : List Char)
    (hbang : (((splitChar '|' row).map pyStrip).getD 0 []).head? = some '!')
    (hsep : ("---".toList).isPrefixOf row = false)
    (hlen : (splitChar '|' row).length ≤ 4) :
    (create_action_info printable handler menu container row
      = create_action_info printable handler menu none row) ∧
    (∀ a : ActionInfo C,
      create_action_info printable handler menu container row
          = Except.ok (MenuInfo.action a) →
      a.container = none ∧
      a.action = (get_eventhandler_name_and_parsed_name printable
        ((((splitChar '|' row).map pyStrip).getD 0 []).tail)).1 ∧
      a.name = (get_eventhandler_name_and_parsed_name printable
        ((((splitChar '|' row).map pyStrip).getD 0 []).tail)).2) ∧
    (∀ container2 : Option C,
      ActionInfoCollection printable [("OnManagePlugins".toList)] container2
          (("[Tools]\n!Manage Plugins".toList))
        = Except.ok [MenuInfo.action
            { menu_name := some ("Tools".toList),
              name := ("Manage Plugins".toList),
              action := ("OnManagePlugins".toList),
              container := none, shortcut := [], icon := none, doc := [] }]) := by
  have hlen' : ¬ ((splitChar '|' row).map pyStrip).length > 4 := by
    rw [List.length_map]; omega
  refine ⟨?_, ?_, fun container2 => rfl⟩
  · unfold create_action_info
    rw [hsep]
    simp only [Bool.false_eq_true, if_false, hlen', if_false, tokens_getD_zero,
      if_pos hbang]
  · intro a ha
    unfold create_action_info at ha
    rw [hsep] at ha
    simp only [Bool.false_eq_true, if_false, hlen', if_false, tokens_getD_zero,
      if_pos hbang] at ha
    by_cases hmem : (get_eventhandler_name_and_parsed_name printable
        ((((splitChar '|' row).map pyStrip).getD 0 []).tail)).1 ∈ handler
    · rw [if_pos hmem] at ha
      cases ha
      exact ⟨rfl, rfl, rfl⟩
    · rw [if_neg hmem] at ha
      cases ha

theorem bang_prefix_makes_global_witness :
    ((((splitChar '|' ("!My Action".toList)).map pyStrip).getD 0 []).head?
        = some '!') ∧
    (create_action_info (fun s => s) [("OnMyAction".toList)]
        (some ("x".toList)) (some 3) ("!My Action".toList)
      = create_action_info (fun s => s) [("OnMyAction".toList)]
        (some ("x".toList)) (none : Option Nat) ("!My Action".toList)) ∧
    ActionInfoCollection (fun s => s) [("OnManagePlugins".toList)]
        (some 5) (("[Tools]\n!Manage Plugins".toList))
      = Except.ok [MenuInfo.action
          { menu_name := some ("Tools".toList),
            name := ("Manage Plugins".toList),
            action := ("OnManagePlugins".toList),
            container := (none : Option Nat), shortcut := [], icon := none,
            doc := [] }] :=
  ⟨by decide,
   (bang_prefix_makes_global (fun s => s) [("OnMyAction".toList)]
     (some ("x".toList)) (some 3) ("!My Action".toList) (by decide) (by decide)
     (by decide)).1,
   (bang_prefix_makes_global (fun s => s) [("OnMyAction".toList)]
     (some ("x".toList)) (some 3) ("!My Action".toList) (by decide) (by decide)
     (by decide)).2.2 (some 5)⟩

theorem writeRowCells_ne_row :
    ∀ (vs : List String) (g : Int → Int → String) (row col r c : Int),
      r ≠ row → writeRowCells g row col vs r c = g r c := by
  intro vs
  induction vs with
  | nil => intro g row col r c _; rfl
  | cons v vs' ih =>
    intro g row col r c hr
    show writeRowCells (writeCellFn g row col v) row (col + 1) vs' r c = g r c
    rw [ih _ row _ r c hr]
    simp [writeCellFn, hr]

theorem writeRowCells_lt_col :
    ∀ (vs : List String) (g : Int → Int → String) (row col r c : Int),
      c < col → writeRowCells g row col vs r c = g r c := by
  intro vs
  induction vs with
  | nil => intro g row col r c _; rfl
  | cons v vs' ih =>
    intro g row col r c hc
    show writeRowCells (writeCellFn g row col v) row (col + 1) vs' r c = g r c
    rw [ih _ row _ r c (by omega)]
    have : c ≠ col := by omega
    simp [writeCellFn, this]

theorem writeRowCells_get :
    ∀ (vs : List String) (g : Int → Int → String) (row col : Int) (j : Nat)
      (v : String), vs[j]? = some v →
      writeRowCells g row col vs row (col + (j : Int)) = v := by
  intro vs
  induction vs with
  | nil => intro g row col j v h; simp at h
  | cons w vs' ih =>
    intro g row col j v h
    cases j with
    | zero =>
      rw [List.getElem?_cons_zero] at h
      cases h
      show writeRowCells (writeCellFn g row col w) row (col + 1) vs' row
        (col + ((0 : Nat) : Int)) = w
      rw [show col + ((0 : Nat) : Int) = col by simp]
      rw [writeRowCells_lt_col vs' _ row (col + 1) row col (by omega)]
      simp [writeCellFn]
    | succ k =>
      rw [List.getElem?_cons_succ] at h
      show writeRowCells (writeCellFn g row col w) row (col + 1) vs' row
        (col + ((k + 1 : Nat) : Int)) = v
      rw [show col + ((k + 1 : Nat) : Int) = (col + 1) + (k : Int) by push_cast; ring]
      exact ih _ row (col + 1) k v h

theorem writeClipboardRows_lt_row :
    ∀ (tbl : List (List String)) (g : Int → Int → String) (row col r c : Int),
      r < row → writeClipboardRows g row col tbl r c = g r c := by
  intro tbl
  induction tbl with
  | nil => intro g row col r c _; rfl
  | cons t rest ih =>
    intro g row col r c hr
    show writeClipboardRows (writeRowCells g row col t) (row + 1) col rest r c = g r c
    rw [ih _ (row + 1) col r c (by omega)]
    exact writeRowCells_ne_row t g row col r c (by omega)

theorem writeClipboardRows_get :
    ∀ (tbl : List (List String)) (g : Int → Int → String) (row col : Int)
      (i j : Nat) (v : String),
      (tbl[i]?.bind fun datarow => datarow[j]?) = some v →
      writeClipboardRows g row col tbl (row + (i : Int)) (col + (j : Int)) = v := by
  intro tbl
  induction tbl with
  | nil => intro g row col i j v h; simp at h
  | cons t rest ih =>
    intro g row col i j v h
    cases i with
    | zero =>
      rw [List.getElem?_cons_zero, Option.some_bind] at h
      show writeClipboardRows (writeRowCells g row col t) (row + 1) col rest
        (row + ((0 : Nat) : Int)) (col + (j : Int)) = v
      rw [show row + ((0 : Nat) : Int) = row by simp]
      rw [writeClipboardRows_lt_row rest _ (row + 1) col row _ (by omega)]
      exact writeRowCells_get t g row col j v h
    | succ k =>
      rw [List.getElem?_cons_succ] at h
      show writeClipboardRows (writeRowCells g row col t) (row + 1) col rest
        (row + ((k + 1 : Nat) : Int)) (col + (j : Int)) = v
      rw [show row + ((k + 1 : Nat) : Int) = (row + 1) + (k : Int) by push_cast; ring]
      exact ih _ (row + 1) col k j v h

theorem intRange_add (a : Int) (d : Nat) :
    intRange a (a + (d : Int))
      = (List.range (d + 1)).map (fun (i : Nat) => a + (i : Int)) := by
  unfold intRange
  rw [show (a + (d : Int) + 1 - a).toNat = d + 1 by omega]

/-- With no cell edit control shown and a non-empty 2D clipboard, `paste`
writes the clipboard rows into the grid starting at the top-left selected
cell. -/
theorem paste_table_grid (s : GridEditorState) (rows : List (List String))
    (hshown : s.cellEditorShown = false)
    (hclip : s.clipboard = some (ClipVal.table rows)) (hrows : rows ≠ []) :
    (GridEditor.paste s).grid
      = writeClipboardRows s.grid s.coords.topleft.row s.coords.topleft.col rows := by
  unfold GridEditor.paste
  rw [hshown, hclip]
  have hfalsy : (ClipVal.table rows).isFalsy = false := by
    simp [ClipVal.isFalsy, hrows]
  simp [hfalsy]

/-- C6: with no cell editor active, copying a selection rectangle, moving the
selection to a different top-left cell, and pasting reproduces the original
rectangle's values cell-for-cell (row-major) starting at the new top-left
cell: the pasted cell at offset `(i, j)` holds the original cell value at the
same offset from the old top-left corner. -/
theorem copy_then_paste_roundtrip (g : Int → Int → String)
    (hist : List (Int → Int → String)) (clip0 : Option ClipVal)
    (r1 c1 r2 c2 : Int) (dr dc i j : Nat)
    (hmove : (r2, c2) ≠ (r1, c1)) (hi : i ≤ dr) (hj : j ≤ dc) :
    (GridEditor.paste (GridEditor.OnSelectCell (GridEditor.copy
        { grid := g, coords := ⟨⟨r1, c1⟩, ⟨r1 + (dr : Int), c1 + (dc : Int)⟩⟩,
          editHistory := hist, clipboard := clip0, cellEditorShown := false })
        r2 c2)).grid (r2 + (i : Int)) (c2 + (j : Int))
      = g (r1 + (i : Int)) (c1 + (j : Int)) := by
  have hcontent : get_selected_content
      { grid := g, coords := ⟨⟨r1, c1⟩, ⟨r1 + (dr : Int), c1 + (dc : Int)⟩⟩,
        editHistory := hist, clipboard := clip0, cellEditorShown := false }
      = ((List.range (dr + 1)).map (fun (k : Nat) => r1 + (k : Int))).map
          (fun row => ((List.range (dc + 1)).map (fun (l : Nat) => c1 + (l : Int))).map
            (fun col => g row col)) := by
    show (intRange r1 (r1 + (dr : Int))).map
        (fun row => (intRange c1 (c1 + (dc : Int))).map (fun col => g row col)) = _
    simp only [intRange_add]
  have hrows_ne : ((List.range (dr + 1)).map (fun (k : Nat) => r1 + (k : Int))).map
      (fun row => ((List.range (dc + 1)).map (fun (l : Nat) => c1 + (l : Int))).map
        (fun col => g row col)) ≠ [] := by
    intro hcon
    have := congrArg List.length hcon
    simp at this
  have hp := paste_table_grid
    (GridEditor.OnSelectCell (GridEditor.copy
      { grid := g, coords := ⟨⟨r1, c1⟩, ⟨r1 + (dr : Int), c1 + (dc : Int)⟩⟩,
        editHistory := hist, clipboard := clip0, cellEditorShown := false })
      r2 c2)
    (((List.range (dr + 1)).map (fun (k : Nat) => r1 + (k : Int))).map
      (fun row => ((List.range (dc + 1)).map (fun (l : Nat) => c1 + (l : Int))).map
        (fun col => g row col)))
    rfl (by show some (ClipVal.table _) = _; rw [hcontent]) hrows_ne
  rw [hp]
  show writeClipboardRows g r2 c2 _ (r2 + (i : Int)) (c2 + (j : Int)) = _
  apply writeClipboardRows_get
  have hi' : i < dr + 1 := by omega
  have hj' : j < dc + 1 := by omega
  simp [List.getElem?_map, List.getElem?_range hi', List.getElem?_range hj']

theorem copy_then_paste_roundtrip_witness :
    (((5 : Int), (5 : Int)) ≠ ((0 : Int), (0 : Int))) ∧
    (GridEditor.paste (GridEditor.OnSelectCell (GridEditor.copy
        { grid := fun r c => if r = 0 ∧ c = 1 then "b" else "z",
          coords := ⟨⟨0, 0⟩, ⟨0 + ((1 : Nat) : Int), 0 + ((1 : Nat) : Int)⟩⟩,
          editHistory := [], clipboard := none, cellEditorShown := false })
        5 5)).grid (5 + ((0 : Nat) : Int)) (5 + ((1 : Nat) : Int))
      = (fun (r c : Int) => if r = 0 ∧ c = 1 then "b" else "z")
          (0 + ((0 : Nat) : Int)) (0 + ((1 : Nat) : Int)) :=
  ⟨by decide,
   copy_then_paste_roundtrip (fun r c => if r = 0 ∧ c = 1 then "b" else "z")
     [] none 0 0 5 5 1 1 0 1 (by decide) (by omega) (by omega)⟩

end Ride
